import Mathlib

/-!
# Verification development for the online-judge execution engine

Shallow embedding of `middleware/codeExecutionHelper.go`, `middleware/executeCpp.go`,
`middleware/executeJava.go` and `middleware/executePy.go`.

* Go `string`s are Lean `String`s, Go `int` is `Int`, a Go `error` is `Option GoError`
  (`none` is `nil`).
* A file handed to `bufio.NewScanner` is represented by the list of its lines (what
  stands between the line feeds). The scanner delivers a line as a token when the line
  is shorter than `bufio.MaxScanTokenSize` (64 KiB); on a longer line `Scan()` answers
  false with `ErrTooLong`, and the `Scan()` after that answers true once more, handing
  out the full buffer.
* Everything the operating system decides (whether a file can be written, how a child
  process ends, which branch of the `select` wins) is read from an explicit `World`.
* The Unicode simple-folding table used by `strings.EqualFold` outside ASCII is not part
  of the repository; it is a parameter (`fold`).
-/

set_option autoImplicit false

namespace OJ

/-! ## Go standard-library functions used by the comparator -/

/-- Go `unicode.IsSpace`: the runes with the Unicode White_Space property. -/
def isSpace (c : Char) : Bool :=
  let n := c.toNat
  (0x09 ≤ n && n ≤ 0x0D) || n == 0x20 || n == 0x85 || n == 0xA0 || n == 0x1680 ||
  (0x2000 ≤ n && n ≤ 0x200A) || n == 0x2028 || n == 0x2029 || n == 0x202F ||
  n == 0x205F || n == 0x3000

/-- Rune list of `strings.TrimSpace`: leading and trailing white space removed. -/
def trimSpaceRunes (s : List Char) : List Char :=
  (s.dropWhile isSpace).rdropWhile isSpace

/-- Go `strings.TrimSpace`. -/
def TrimSpace (s : String) : String :=
  ⟨trimSpaceRunes s.data⟩

/-- One step of the rune loop of Go `strings.EqualFold`: equal runes, or the smaller one
is an ASCII capital and the larger its lower-case form, or (when the larger rune is
outside ASCII) the larger lies on the simple-fold orbit of the smaller, which is what
`fold` answers. -/
def equalFoldRune (fold : Char → Char → Bool) (sr tr : Char) : Bool :=
  if tr = sr then true
  else
    let lo := if tr.toNat < sr.toNat then tr else sr
    let hi := if tr.toNat < sr.toNat then sr else tr
    if hi.toNat < 0x80 then
      decide ('A'.toNat ≤ lo.toNat ∧ lo.toNat ≤ 'Z'.toNat ∧
        hi.toNat = lo.toNat + ('a'.toNat - 'A'.toNat))
    else fold lo hi

/-- Rune loop of Go `strings.EqualFold`: the two strings are walked in lockstep and
must run out together. -/
def equalFoldRunes (fold : Char → Char → Bool) : List Char → List Char → Bool
  | [], [] => true
  | [], _ :: _ => false
  | _ :: _, [] => false
  | sr :: s, tr :: t => if equalFoldRune fold sr tr then equalFoldRunes fold s t else false

/-- Go `strings.EqualFold`. -/
def EqualFold (fold : Char → Char → Bool) (s t : String) : Bool :=
  equalFoldRunes fold s.data t.data

/-- A fold table without any orbit outside ASCII. On strings made of ASCII runes the
table is never consulted, so it serves for concrete ASCII inputs. -/
def asciiFold : Char → Char → Bool := fun _ _ => false

/-- Go `strings.Contains`. -/
def Contains (s substr : String) : Bool :=
  s.data.tails.any (fun t => substr.data.isPrefixOf t)

/-! ## Errors -/

/-- A Go `error` value: the sentinel `context.DeadlineExceeded`, or an error that only
carries a message (`fmt.Errorf`, `*exec.ExitError`, `*os.PathError`, ...). -/
inductive GoError where
  | deadlineExceeded
  | msg (text : String)
  deriving DecidableEq, Repr

/-- The method `Error()` of a Go `error`. -/
def GoError.Error : GoError → String
  | .deadlineExceeded => "context deadline exceeded"
  | .msg text => text

/-! ## `codeExecutionHelper.go`: constants -/

def correctAnswer : String := "CORRECT"
def wrongAnswer : String := "WRONG"
def compileError : String := "COMPILE_ERROR"
def timeExceeded : String := "TIME_EXCEEDED"
def memoryExceeded : String := "MEMORY_EXCEEDED"
def runtimeError : String := "RUNTIME_ERROR"

/-! ## `bufio.Scanner` with the default split function `ScanLines` -/

/-- Go `len(s)`: the number of bytes of the UTF-8 encoding of the string. -/
def byteLength (s : String) : Nat :=
  (s.data.map Char.utf8Size).sum

/-- Go `bufio.MaxScanTokenSize`. -/
def maxScanTokenSize : Nat := 64 * 1024

/-- A line fits the buffer of the scanner, so that `Scan()` finds its line feed (or the
end of the input) before the buffer is full. -/
def fits (line : String) : Bool :=
  decide (byteLength line < maxScanTokenSize)

/-- Go `bufio.dropCR`: one trailing carriage return is removed. -/
def dropCR (data : List Char) : List Char :=
  if data.getLast? = some '\r' then data.dropLast else data

/-- The token `ScanLines` makes of a line: `Text()` after a `Scan()` that delivered the
line. -/
def tokenOf (line : String) : String :=
  ⟨dropCR line.data⟩

/-- The state of a `bufio.Scanner` between two calls of `Scan()`.

* `reading lines`: no error so far, `lines` are still unread.
* `failed`: the last `Scan()` set `ErrTooLong`; the full buffer has not been handed out.
* `finished`: the end of the input has been reached, or the buffer of a line that was
  too long has been handed out. -/
inductive Scanner where
  | reading (lines : List String)
  | failed
  | finished
  deriving DecidableEq, Repr

/-- Go `Scanner.Scan()`: its answer and the state it leaves.

* At the end of the input: false, for good.
* A next line that fits: true, the line is consumed.
* A next line that does not fit: false, `ErrTooLong` is set.
* After `ErrTooLong`: the split function is called on the buffer with `atEOF` true and
  returns it as a token, so the answer is true; after that, false for good. -/
def Scanner.Scan : Scanner → Bool × Scanner
  | .reading [] => (false, .finished)
  | .reading (line :: rest) =>
      if fits line then (true, .reading rest) else (false, .failed)
  | .failed => (true, .finished)
  | .finished => (false, .finished)

/-- The lines of a file with the given content. `data` is what is still unread, `cur`
the bytes of the line being read. A line feed ends a line; at end of input the
unterminated rest is a line when it is not empty. -/
def linesFrom : List Char → List Char → List String
  | [], cur =>
      if cur.isEmpty then [] else [String.mk cur]
  | c :: data, cur =>
      if c = '\n' then String.mk cur :: linesFrom data []
      else linesFrom data (cur ++ [c])

/-- The lines of a file with the given content. -/
def fileLines (content : String) : List String :=
  linesFrom content.data []

/-! ## `compareFile` -/

/-- The condition of line 65 negated: the two lines are equal after `TrimSpace`,
ignoring case. -/
def linesMatch (fold : Char → Char → Bool) (l1 l2 : String) : Bool :=
  EqualFold fold (TrimSpace l1) (TrimSpace l2)

/-- Line 71, `scanner1.Scan() || scanner2.Scan()`, on two scanners in the given states. -/
def scanEither (scanner1 scanner2 : Scanner) : Bool :=
  scanner1.Scan.1 || scanner2.Scan.1

/-- Lines 61-75 of `compareFile`. The two arguments are the lines the two scanners, both
without an error so far, have not yet read; `index` is the local variable of that name.

* First file at its end: `scanner1.Scan()` is false, `&&` does not evaluate
  `scanner2.Scan()`, the loop ends; line 71 finds scanner1 finished and scanner2 still
  reading.
* Next line of the first file too long: `scanner1.Scan()` is false with `ErrTooLong`, the
  loop ends; line 71 finds scanner1 failed and scanner2 still reading.
* Next line of the first file delivered, second file at its end: `scanner2.Scan()` is
  false, the loop ends; line 71 finds scanner1 reading what is left of the first file
  and scanner2 finished.
* Next line of the first file delivered, next line of the second file too long:
  `scanner2.Scan()` is false with `ErrTooLong`, the loop ends; line 71 finds scanner1
  reading what is left of the first file and scanner2 failed.
* Both lines delivered: lines 62-68. -/
def compareLoop (fold : Char → Char → Bool) : List String → List String → Int → Int × Bool
  | [], f2, index =>
      if scanEither .finished (.reading f2) then (index, false) else (index, true)
  | t1 :: rest1, f2, index =>
      if fits t1 then
        match f2 with
        | [] =>
            if scanEither (.reading rest1) .finished then (index, false) else (index, true)
        | t2 :: rest2 =>
            if fits t2 then
              let line1 := TrimSpace (tokenOf t1)
              let line2 := TrimSpace (tokenOf t2)
              if !EqualFold fold line1 line2 then (index, false)
              else compareLoop fold rest1 rest2 (index + 1)
            else
              if scanEither (.reading rest1) .failed then (index, false) else (index, true)
      else
        if scanEither .failed (.reading f2) then (index, false) else (index, true)

/-- Go `compareFile`. Each argument is what `os.Open` gives for that path: an error, or
the file, seen as the list of its lines. The result is `(index, isEqual, err)`. -/
def compareFile (fold : Char → Char → Bool)
    (fileOne fileTwo : Except GoError (List String)) : Int × Bool × Option GoError :=
  match fileOne with
  | .error err => (0, false, some err)
  | .ok f1 =>
    match fileTwo with
    | .error err => (0, false, some err)
    | .ok f2 =>
      let r := compareLoop fold f1 f2 1
      (r.1, r.2, none)

/-! ## Child processes -/

/-- The type `models.TestCase`, with the two fields the engine reads (both `*string`). -/
structure TestCase where
  Testcase : Option String
  Output : Option String
  deriving DecidableEq, Repr

/-- The file `./files/expected_output.txt` as `WriteOutputToFile` leaves it when every
write succeeds: the `Output` of each test case that has one, each followed by a line
feed. -/
def WriteOutputToFile : List TestCase → String
  | [] => ""
  | tc :: rest =>
      match tc.Output with
      | some out => out ++ "\n" ++ WriteOutputToFile rest
      | none => WriteOutputToFile rest

/-- Go `syscall.WaitStatus` of a process that has been waited for. -/
inductive WaitStatus where
  | exited (code : Nat)
  | signaled (sig : Nat)
  deriving DecidableEq, Repr

def SIGSEGV : Nat := 11
def SIGXCPU : Nat := 24

def WaitStatus.Signaled : WaitStatus → Bool
  | .exited _ => false
  | .signaled _ => true

/-- Go `WaitStatus.Signal()`; `-1` when the process was not signaled. -/
def WaitStatus.Signal : WaitStatus → Int
  | .exited _ => -1
  | .signaled sig => sig

/-- Go `WaitStatus.ExitStatus()`; `-1` when the process did not exit. -/
def WaitStatus.ExitStatus : WaitStatus → Int
  | .exited code => code
  | .signaled _ => -1

/-- A non-nil error of `cmd.Run()`: an `*exec.ExitError` with its wait status, or any
other error. `text` is what `Error()` gives ("exit status 1", "signal: killed", ...). -/
inductive CmdError where
  | exitError (status : WaitStatus) (text : String)
  | other (text : String)
  deriving DecidableEq, Repr

def CmdError.Error : CmdError → String
  | .exitError _ text => text
  | .other text => text

/-- What one `cmd.Run()` leaves behind: its error and the two output buffers. -/
structure CmdRun where
  err : Option CmdError
  stdout : String
  stderr : String
  deriving DecidableEq, Repr

/-- Everything outside the program that the engine observes.

* `writeFile path data`: the error of `os.WriteFile`.
* `run argv stdin i`: the outcome of `cmd.Run()` for command line `argv` fed `stdin`; `i`
  tells apart repeated runs of one command line (the index of the test case).
* `start argv`: the error of the `cmd.Start()` on line 97.
* `createOutput`: the error of `os.Create("./files/output.txt")`.
* `deadline`: `some k` when the `select` on line 154 takes the `ctx.Done()` branch, at a
  moment when the goroutine has been through at most `k` test cases; `none` when it
  takes the `done` branch.
* `openOutput`: the error of opening `./files/output.txt` again in `compareFile`.
* `expectedFile`: what opening `./files/expected_output.txt` gives, an error or the
  content of the file.
* `fold`: the Unicode simple-fold table of `strings.EqualFold`. -/
structure World where
  writeFile : String → String → Option GoError
  run : List String → String → Nat → CmdRun
  start : List String → Option GoError
  createOutput : Option GoError
  deadline : Option Nat
  openOutput : Option GoError
  expectedFile : Except GoError String
  fold : Char → Char → Bool

/-! ## `runExecutableWithTimeout` -/

/-- The variables the goroutine of `runExecutableWithTimeout` shares with its caller:
`lastExecutedIndex`, the content of `./files/output.txt`, and (for the proofs) the
indices of the test cases whose `cmd.Run()` has returned. -/
structure Harness where
  lastExecutedIndex : Int
  outputFile : String
  ran : List Nat
  deriving DecidableEq, Repr

/-- Lines 110-113: the standard input of a test case. -/
def stdinOf (tc : TestCase) : String :=
  match tc.Testcase with
  | some input => input
  | none => ""

/-- The goroutine of lines 108-152, from test case number `i` on. The second component is
the value sent on `done`. -/
def worker (w : World) (argv : List String) :
    List TestCase → Nat → Harness → Harness × Option GoError
  | [], _, h => (h, none)
  | tc :: rest, i, h =>
      let input := stdinOf tc
      let r := w.run argv input i
      let h1 : Harness := { h with ran := h.ran ++ [i] }
      match r.err with
      | some (.exitError status text) =>
          if status.Signaled && (status.Signal == SIGXCPU || status.Signal == SIGSEGV) then
            (h1, some (.msg ("execution error 1: " ++ text)))
          else
            (h1, some (.msg ("execution error 2: " ++ text)))
      | some (.other text) =>
          (h1, some (.msg ("execution error 2: " ++ text)))
      | none =>
          worker w argv rest (i + 1)
            { h1 with outputFile := h1.outputFile ++ r.stdout, lastExecutedIndex := i }

/-- The three things `runExecutableWithTimeout` leaves: its two results and the shared
variables at the moment it returns. -/
structure HarnessResult where
  index : Int
  err : Option GoError
  h : Harness
  deriving DecidableEq, Repr

/-- Lines 83-87 and 118-122: the command line. -/
def commandLine (compiler fileAddress : String) : List String :=
  if compiler ≠ "" then [compiler, fileAddress] else [fileAddress]

/-- Go `runExecutableWithTimeout`. -/
def runExecutableWithTimeout (w : World) (compiler fileAddress : String)
    (testCases : List TestCase) : HarnessResult :=
  let h0 : Harness := { lastExecutedIndex := -1, outputFile := "", ran := [] }
  let argv := commandLine compiler fileAddress
  match w.start argv with
  | some err => ⟨-1, some (.msg ("failed to start executable: " ++ err.Error)), h0⟩
  | none =>
    match w.createOutput with
    | some err => ⟨-1, some (.msg ("failed to create output file: " ++ err.Error)), h0⟩
    | none =>
      match w.deadline with
      | some k =>
          let h := (worker w argv (testCases.take k) 0 h0).1
          ⟨h.lastExecutedIndex, some .deadlineExceeded, h⟩
      | none =>
          let r := worker w argv testCases 0 h0
          match r.2 with
          | some err => ⟨r.1.lastExecutedIndex, some err, r.1⟩
          | none => ⟨r.1.lastExecutedIndex, none, r.1⟩

/-! ## The three runners -/

/-- What a runner returns, `(index, verdict, err)`, and (for the proofs) what the test
harness returned, `none` when `runExecutableWithTimeout` was not called. -/
structure RunResult where
  index : Int
  verdict : String
  err : Option GoError
  harness : Option HarnessResult
  deriving DecidableEq, Repr

/-- The two files `compareFile` is called on by the runners: `./files/output.txt` as the
harness left it, and `./files/expected_output.txt`. -/
def actualFile (w : World) (hr : HarnessResult) : Except GoError (List String) :=
  match w.openOutput with
  | some err => .error err
  | none => .ok (fileLines hr.h.outputFile)

def expectedLines (w : World) : Except GoError (List String) :=
  match w.expectedFile with
  | .error err => .error err
  | .ok content => .ok (fileLines content)

/-- Go `executeCppFile`. -/
def executeCppFile (w : World) (filePath : String) : Option GoError :=
  let r := w.run ["g++", filePath, "-o", "./files/a.out"] "" 0
  match r.err with
  | some err => some (.msg ("failed to compile C++ file: " ++ err.Error ++ "\n" ++ r.stderr))
  | none => none

/-- Go `compileJava`. -/
def compileJava (w : World) (fileAddress : String) : Option GoError :=
  let r := w.run ["javac", fileAddress] "" 0
  match r.err with
  | some (.exitError status _) =>
      some (.msg ("javac exited with status: " ++ toString status.ExitStatus))
  | some (.other text) => some (.msg ("failed to compile Java code: " ++ text))
  | none => none

/-- Go `RunCpp`. -/
def RunCpp (w : World) (codeBody : String) (testcases : List TestCase) : RunResult :=
  match w.writeFile "./files/solution.cpp" codeBody with
  | some err => ⟨-1, "", some (.msg ("failed to write code to file: " ++ err.Error)), none⟩
  | none =>
    match executeCppFile w "./files/solution.cpp" with
    | some err =>
        ⟨-1, compileError, some (.msg ("failed to execute C++ file: " ++ err.Error)), none⟩
    | none =>
      let hr := runExecutableWithTimeout w "" "./files/a.out" testcases
      let outcome := hr.index
      match hr.err with
      | some err =>
          if err = .deadlineExceeded then ⟨outcome, timeExceeded, none, some hr⟩
          else if Contains err.Error "exited with status" then
            ⟨outcome, runtimeError, none, some hr⟩
          else if Contains err.Error "exceeded memory limit" then
            ⟨outcome, memoryExceeded, none, some hr⟩
          else
            ⟨outcome, compileError,
              some (.msg ("failed to run executable: " ++ err.Error)), some hr⟩
      | none =>
          if outcome = (testcases.length : Int) - 1 then
            match compareFile w.fold (actualFile w hr) (expectedLines w) with
            | (lastIndex, _, some err) =>
                ⟨lastIndex, "", some (.msg ("failed to compare files: " ++ err.Error)), some hr⟩
            | (lastIndex, isEqual, none) =>
                if !isEqual then ⟨lastIndex, wrongAnswer, none, some hr⟩
                else ⟨outcome, correctAnswer, none, some hr⟩
          else ⟨outcome, correctAnswer, none, some hr⟩

/-- Go `RunJava`. -/
def RunJava (w : World) (codeBody : String) (testcases : List TestCase) : RunResult :=
  match w.writeFile "./files/Solution.java" codeBody with
  | some err => ⟨-1, "", some (.msg ("failed to write code to file: " ++ err.Error)), none⟩
  | none =>
    match compileJava w "./files/Solution.java" with
    | some compErr =>
        ⟨-1, "", some (.msg ("failed to compile Java code: " ++ compErr.Error)), none⟩
    | none =>
      let hr := runExecutableWithTimeout w "java" "./files/Solution.java" testcases
      let outcome := hr.index
      match hr.err with
      | some err =>
          if err = .deadlineExceeded then ⟨outcome, timeExceeded, none, some hr⟩
          else if Contains err.Error "exited with status" then
            ⟨outcome, runtimeError, none, some hr⟩
          else if Contains err.Error "exceeded memory limit" then
            ⟨outcome, memoryExceeded, none, some hr⟩
          else
            ⟨outcome, runtimeError,
              some (.msg ("failed to run Java code: " ++ err.Error)), some hr⟩
      | none =>
          if outcome = -1 then
            ⟨-1, "", some (.msg "no testcases executed during runtime"), some hr⟩
          else
            match compareFile w.fold (actualFile w hr) (expectedLines w) with
            | (lastTestCaseExecuted, _, some err) =>
                ⟨lastTestCaseExecuted, "",
                  some (.msg ("failed to compare files: " ++ err.Error)), some hr⟩
            | (lastTestCaseExecuted, isEqual, none) =>
                if !isEqual then ⟨lastTestCaseExecuted, wrongAnswer, none, some hr⟩
                else ⟨outcome, correctAnswer, none, some hr⟩

/-- Go `RunPython`. -/
def RunPython (w : World) (codeBody : String) (testCases : List TestCase) : RunResult :=
  match w.writeFile "./files/solution.py" codeBody with
  | some err =>
      ⟨-1, "Internal Server Error",
        some (.msg ("failed to write code to file: " ++ err.Error)), none⟩
  | none =>
    let hr := runExecutableWithTimeout w "python3" "./files/solution.py" testCases
    let outcome := hr.index
    match hr.err with
    | some err =>
        if err = .deadlineExceeded then ⟨outcome, timeExceeded, none, some hr⟩
        else if Contains err.Error "exited with status" then
          ⟨outcome, runtimeError, none, some hr⟩
        else if Contains err.Error "exceeded memory limit" then
          ⟨outcome, memoryExceeded, none, some hr⟩
        else
          ⟨outcome, compileError,
            some (.msg ("failed to run executable: " ++ err.Error)), some hr⟩
    | none =>
        if outcome = -1 then
          ⟨-1, "", some (.msg "no testcases executed"), some hr⟩
        else
          match compareFile w.fold (actualFile w hr) (expectedLines w) with
          | (lastExecutedIndex, _, some err) =>
              ⟨lastExecutedIndex, "",
                some (.msg ("failed to compare files: " ++ err.Error)), some hr⟩
          | (lastExecutedIndex, isEqual, none) =>
              if !isEqual then ⟨lastExecutedIndex, wrongAnswer, none, some hr⟩
              else ⟨outcome, correctAnswer, none, some hr⟩

/-! ## Concrete worlds -/

/-- A world in which nothing goes wrong: every file operation succeeds, every process
exits with status 0 and prints `out`, the `done` branch is taken, and the expected-output
file holds `expected`. -/
def calmWorld (out expected : String) : World where
  writeFile := fun _ _ => none
  run := fun _ _ _ => ⟨none, out, ""⟩
  start := fun _ => none
  createOutput := none
  deadline := none
  openOutput := none
  expectedFile := .ok expected
  fold := asciiFold

/-- The calm world, except that the submitted program (any command line other than a
compiler) exits with status 1 on test case number `bad`. -/
def crashWorld (out expected : String) (bad : Nat) : World :=
  { calmWorld out expected with
    run := fun argv _ i =>
      if argv.head? ≠ some "g++" ∧ argv.head? ≠ some "javac" ∧ i = bad then
        ⟨some (.exitError (.exited 1) "exit status 1"), "", ""⟩
      else ⟨none, out, ""⟩ }

/-- The calm world, except that the compiler exits with status 1. -/
def brokenSourceWorld : World :=
  { calmWorld "" "" with
    run := fun argv _ _ =>
      if argv.head? = some "g++" ∨ argv.head? = some "javac" then
        ⟨some (.exitError (.exited 1) "exit status 1"), "", "error: expected semicolon"⟩
      else ⟨none, "", ""⟩ }

/-- The calm world, except that the overall deadline expires before the first test case
has finished. -/
def sleepyWorld : World :=
  { calmWorld "" "" with deadline := some 0 }

/-- A line of 70000 copies of one rune, longer than the buffer of a scanner when the
rune is an ASCII one. -/
def longLine (c : Char) : String :=
  ⟨List.replicate 70000 c⟩

def oneCase : List TestCase := [⟨none, some "5"⟩]

/-- Two runes that differ at most in letter case: the same rune, an ASCII capital and its
lower-case form (in either order), or two runes that are not white space, the larger
outside ASCII, which the fold table puts on one orbit. -/
def SameRuneIgnoringCase (fold : Char → Char → Bool) (x y : Char) : Prop :=
  x = y ∨
  ('A'.toNat ≤ x.toNat ∧ x.toNat ≤ 'Z'.toNat ∧ y.toNat = x.toNat + 32) ∨
  ('A'.toNat ≤ y.toNat ∧ y.toNat ≤ 'Z'.toNat ∧ x.toNat = y.toNat + 32) ∨
  (x.toNat < y.toNat ∧ 0x80 ≤ y.toNat ∧ fold x y = true ∧
    isSpace x = false ∧ isSpace y = false) ∨
  (y.toNat < x.toNat ∧ 0x80 ≤ x.toNat ∧ fold y x = true ∧
    isSpace x = false ∧ isSpace y = false)

/-- Two lines that differ at most in leading and trailing white space and in letter
case: each is a core between two runs of white space, and the two cores are rune by rune
the same up to letter case. -/
def SameUpToSpaceAndCase (fold : Char → Char → Bool) (a b : String) : Prop :=
  ∃ la ca ra lb cb rb : List Char,
    a.data = la ++ ca ++ ra ∧ b.data = lb ++ cb ++ rb ∧
    (∀ c ∈ la ++ ra ++ lb ++ rb, isSpace c = true) ∧
    List.Forall₂ (SameRuneIgnoringCase fold) ca cb

/-- What the claim about the verdict CORRECT asks of a run: the runner did call the
harness, the harness returned `hr` with no error and the index of the last test case,
having run every test case, and `compareFile` on the actual-output and expected-output
files answered `isEqual = true` with no error. -/
def FullRunAndEqualFiles (w : World) (testCases : List TestCase) (hr : HarnessResult)
    (res : RunResult) : Prop :=
  res.harness = some hr ∧ hr.err = none ∧ hr.index = (testCases.length : Int) - 1 ∧
  hr.h.ran = List.range testCases.length ∧
  (compareFile w.fold (actualFile w hr) (expectedLines w)).2 = (true, none)

/-! ## The comparator -/

theorem equalFoldRunes_refl (fold : Char → Char → Bool) (s : List Char) :
    equalFoldRunes fold s s = true := by
  induction s with
  | nil => rfl
  | cons c s ih => simp [equalFoldRunes, equalFoldRune, ih]

theorem linesMatch_refl (fold : Char → Char → Bool) (l : String) :
    linesMatch fold l l = true := by
  unfold linesMatch EqualFold
  exact equalFoldRunes_refl fold _

theorem trimSpaceRunes_cons_space (c : Char) (s : List Char) (hc : isSpace c = true) :
    trimSpaceRunes (c :: s) = trimSpaceRunes s := by
  simp [trimSpaceRunes, List.dropWhile, hc]

theorem trimSpaceRunes_concat_space (s : List Char) (c : Char) (hc : isSpace c = true) :
    trimSpaceRunes (s ++ [c]) = trimSpaceRunes s := by
  induction s with
  | nil => simp [trimSpaceRunes, List.dropWhile, hc]
  | cons x s ih =>
      by_cases hx : isSpace x = true
      · rw [List.cons_append, trimSpaceRunes_cons_space _ _ hx,
          trimSpaceRunes_cons_space _ _ hx, ih]
      · have hx2 : isSpace x = false := by simpa using hx
        simp only [trimSpaceRunes, List.cons_append, List.dropWhile, hx2, List.append_eq]
        rw [← List.cons_append]
        exact List.rdropWhile_concat_pos isSpace (x :: s) c hc

/-- The carriage return `ScanLines` drops is white space, so `TrimSpace` gives the same
on the token as on the line. -/
theorem trimSpace_tokenOf (l : String) : TrimSpace (tokenOf l) = TrimSpace l := by
  unfold TrimSpace tokenOf dropCR
  by_cases h : l.data.getLast? = some '\r'
  · have hl : l.data.dropLast ++ ['\r'] = l.data :=
      List.dropLast_append_getLast? '\r' (by rw [h]; exact rfl)
    simp only [h, if_true]
    rw [← trimSpaceRunes_concat_space l.data.dropLast '\r' (by decide), hl]
  · simp only [h, if_false]

/-- When the lines match pair by pair, all of them fit the buffer and the files have the
same length, the loop runs to the end of both and reports equality with `index` advanced
once per line. -/
theorem compareLoop_of_match (fold : Char → Char → Bool) (f1 f2 : List String)
    (h : List.Forall₂
      (fun a b => fits a = true ∧ fits b = true ∧ linesMatch fold a b = true) f1 f2)
    (index : Int) :
    compareLoop fold f1 f2 index = (index + f1.length, true) := by
  induction h generalizing index with
  | nil => simp [compareLoop, scanEither, Scanner.Scan]
  | cons hab _ ih =>
      obtain ⟨ha, hb, hm⟩ := hab
      simp only [linesMatch] at hm
      simp only [compareLoop, ha, hb, trimSpace_tokenOf, hm, List.length_cons, ih,
        Bool.not_true, Bool.false_eq_true, if_false, if_true, Prod.mk.injEq, and_true]
      push_cast
      omega

/-- The loop on two files whose lines at the first `m` positions fit the buffer and
match, and whose lines at position `m` (counted from 0) do not match. -/
theorem compareLoop_first_mismatch (fold : Char → Char → Bool) (m : Nat) :
    ∀ (f1 f2 : List String) (index : Int) (a b : String),
      (∀ j x, j < m → f1[j]? = some x → fits x = true) →
      (∀ j y, j < m → f2[j]? = some y → fits y = true) →
      (∀ j x y, j < m → f1[j]? = some x → f2[j]? = some y → linesMatch fold x y = true) →
      f1[m]? = some a → f2[m]? = some b → linesMatch fold a b = false →
      compareLoop fold f1 f2 index = (index + m, false) := by
  induction m with
  | zero =>
      intro f1 f2 index a b _ _ _ ha hb hab
      cases f1 with
      | nil => simp at ha
      | cons x f1 =>
        cases f2 with
        | nil => simp at hb
        | cons y f2 =>
          simp only [List.getElem?_cons_zero, Option.some.injEq] at ha hb
          subst ha hb
          simp only [linesMatch] at hab
          cases hx : fits x <;> cases hy : fits y <;>
            simp [compareLoop, scanEither, Scanner.Scan, hx, hy, hab, trimSpace_tokenOf]
  | succ m ih =>
      intro f1 f2 index a b hfit1 hfit2 hpre ha hb hab
      cases f1 with
      | nil => simp at ha
      | cons x f1 =>
        cases f2 with
        | nil => simp at hb
        | cons y f2 =>
          have hx := hfit1 0 x (Nat.succ_pos m) (by simp)
          have hy := hfit2 0 y (Nat.succ_pos m) (by simp)
          have hxy := hpre 0 x y (Nat.succ_pos m) (by simp) (by simp)
          simp only [linesMatch] at hxy
          simp only [List.getElem?_cons_succ] at ha hb
          have htail := ih f1 f2 (index + 1) a b
            (fun j u hj hu => hfit1 (j + 1) u (Nat.succ_lt_succ hj) (by simpa using hu))
            (fun j v hj hv => hfit2 (j + 1) v (Nat.succ_lt_succ hj) (by simpa using hv))
            (fun j u v hj hu hv => hpre (j + 1) u v (Nat.succ_lt_succ hj)
              (by simpa using hu) (by simpa using hv)) ha hb hab
          simp only [compareLoop, hx, hy, trimSpace_tokenOf, hxy, htail, Bool.not_true,
            Bool.false_eq_true, if_false, if_true, Prod.mk.injEq, and_true]
          push_cast
          omega

/-- A line of 70000 ASCII runes does not fit the buffer. -/
theorem fits_longLine (c : Char) (hc : c.utf8Size = 1) : fits (longLine c) = false := by
  unfold fits byteLength longLine maxScanTokenSize
  rw [List.map_replicate, List.sum_replicate, hc]
  decide

/-- The loop stops at once, with `isEqual = false`, when the next line of the first file
does not fit the buffer. -/
theorem compareLoop_of_long_first (fold : Char → Char → Bool) (t1 : String)
    (rest1 f2 : List String) (index : Int) (h : fits t1 = false) :
    compareLoop fold (t1 :: rest1) f2 index = (index, false) := by
  simp [compareLoop, h, scanEither, Scanner.Scan]

theorem forall₂_of_getElem? {α β : Type} (R : α → β → Prop) :
    ∀ (l1 : List α) (l2 : List β), l1.length = l2.length →
      (∀ (j : Nat) (a : α) (b : β), l1[j]? = some a → l2[j]? = some b → R a b) →
      List.Forall₂ R l1 l2 := by
  intro l1
  induction l1 with
  | nil =>
      intro l2 hlen _
      cases l2 with
      | nil => exact List.Forall₂.nil
      | cons y l2 => simp at hlen
  | cons x l1 ih =>
      intro l2 hlen h
      cases l2 with
      | nil => simp at hlen
      | cons y l2 =>
        refine List.Forall₂.cons (h 0 x y (by simp) (by simp)) (ih l2 (by simpa using hlen) ?_)
        intro j a b ha hb
        exact h (j + 1) a b (by simpa using ha) (by simpa using hb)

/-! ### Trimming and folding -/

theorem trimSpaceRunes_append_left (l s : List Char) (hl : ∀ c ∈ l, isSpace c = true) :
    trimSpaceRunes (l ++ s) = trimSpaceRunes s := by
  induction l with
  | nil => rfl
  | cons c l ih =>
      rw [List.cons_append, trimSpaceRunes_cons_space _ _ (hl c (List.mem_cons_self c l))]
      exact ih (fun d hd => hl d (List.mem_cons_of_mem c hd))

theorem trimSpaceRunes_append_right (r : List Char) :
    ∀ s : List Char, (∀ c ∈ r, isSpace c = true) →
      trimSpaceRunes (s ++ r) = trimSpaceRunes s := by
  induction r with
  | nil => intro s _; simp
  | cons c r ih =>
      intro s hr
      have h1 : s ++ c :: r = (s ++ [c]) ++ r := by simp
      rw [h1, ih (s ++ [c]) (fun d hd => hr d (List.mem_cons_of_mem c hd))]
      exact trimSpaceRunes_concat_space s c (hr c (List.mem_cons_self c r))

theorem forall₂_dropWhile {R : Char → Char → Prop} {p : Char → Bool}
    (hR : ∀ x y, R x y → p x = p y) {l1 l2 : List Char} (h : List.Forall₂ R l1 l2) :
    List.Forall₂ R (l1.dropWhile p) (l2.dropWhile p) := by
  induction h with
  | nil => exact List.Forall₂.nil
  | cons hxy ht ih =>
      rename_i x y l1 l2
      simp only [List.dropWhile]
      rw [← hR x y hxy]
      cases p x with
      | true => exact ih
      | false => exact List.Forall₂.cons hxy ht

theorem forall₂_trimSpaceRunes {R : Char → Char → Prop}
    (hR : ∀ x y, R x y → isSpace x = isSpace y) {l1 l2 : List Char}
    (h : List.Forall₂ R l1 l2) :
    List.Forall₂ R (trimSpaceRunes l1) (trimSpaceRunes l2) := by
  unfold trimSpaceRunes List.rdropWhile
  rw [List.forall₂_reverse_iff]
  apply forall₂_dropWhile hR
  rw [List.forall₂_reverse_iff]
  exact forall₂_dropWhile hR h

theorem isSpace_of_ascii_letter (c : Char) (h1 : 65 ≤ c.toNat) (h2 : c.toNat ≤ 122) :
    isSpace c = false := by
  simp only [isSpace, Bool.or_eq_false_iff, Bool.and_eq_false_imp, decide_eq_true_eq,
    decide_eq_false_iff_not, beq_eq_false_iff_ne]
  omega

theorem isSpace_eq_of_sameRune (fold : Char → Char → Bool) (x y : Char)
    (h : SameRuneIgnoringCase fold x y) : isSpace x = isSpace y := by
  have hA : 'A'.toNat = 65 := rfl
  have hZ : 'Z'.toNat = 90 := rfl
  rcases h with h | ⟨h1, h2, h3⟩ | ⟨h1, h2, h3⟩ | ⟨_, _, _, hx, hy⟩ | ⟨_, _, _, hx, hy⟩
  · rw [h]
  · rw [isSpace_of_ascii_letter x (by omega) (by omega),
      isSpace_of_ascii_letter y (by omega) (by omega)]
  · rw [isSpace_of_ascii_letter x (by omega) (by omega),
      isSpace_of_ascii_letter y (by omega) (by omega)]
  · rw [hx, hy]
  · rw [hx, hy]

theorem equalFoldRune_of_sameRune (fold : Char → Char → Bool) (x y : Char)
    (h : SameRuneIgnoringCase fold x y) : equalFoldRune fold x y = true := by
  have hA : 'A'.toNat = 65 := rfl
  have hZ : 'Z'.toNat = 90 := rfl
  have ha : 'a'.toNat = 97 := rfl
  rcases h with h | ⟨h1, h2, h3⟩ | ⟨h1, h2, h3⟩ | ⟨h1, h2, h3, _, _⟩ | ⟨h1, h2, h3, _, _⟩
  · simp [equalFoldRune, h]
  · have hne : y ≠ x := by intro e; rw [e] at h3; omega
    have hlt : ¬ y.toNat < x.toNat := by omega
    have hhi : y.toNat < 128 := by omega
    simp only [equalFoldRune, hne, hlt, if_false, hhi, if_true, decide_eq_true_eq]
    omega
  · have hne : y ≠ x := by intro e; rw [e] at h3; omega
    have hlt : y.toNat < x.toNat := by omega
    have hhi : x.toNat < 128 := by omega
    simp only [equalFoldRune, hne, hlt, if_false, hhi, if_true, decide_eq_true_eq]
    omega
  · have hne : y ≠ x := by intro e; rw [e] at h1; omega
    have hlt : ¬ y.toNat < x.toNat := by omega
    have hhi : ¬ y.toNat < 128 := by omega
    simp only [equalFoldRune, hne, hlt, if_false, hhi, h3]
  · have hne : y ≠ x := by intro e; rw [e] at h1; omega
    have hhi : ¬ x.toNat < 128 := by omega
    simp only [equalFoldRune, hne, h1, if_false, if_true, hhi, h3]

theorem equalFoldRunes_of_forall₂ (fold : Char → Char → Bool) {l1 l2 : List Char}
    (h : List.Forall₂ (SameRuneIgnoringCase fold) l1 l2) :
    equalFoldRunes fold l1 l2 = true := by
  induction h with
  | nil => rfl
  | cons hxy _ ih =>
      simp only [equalFoldRunes, equalFoldRune_of_sameRune fold _ _ hxy, ih, if_true]

theorem linesMatch_of_sameUpToSpaceAndCase (fold : Char → Char → Bool) (a b : String)
    (h : SameUpToSpaceAndCase fold a b) : linesMatch fold a b = true := by
  obtain ⟨la, ca, ra, lb, cb, rb, ha, hb, hsp, hcore⟩ := h
  have hla : ∀ c ∈ la, isSpace c = true := fun c hc => hsp c (by simp [hc])
  have hra : ∀ c ∈ ra, isSpace c = true := fun c hc => hsp c (by simp [hc])
  have hlb : ∀ c ∈ lb, isSpace c = true := fun c hc => hsp c (by simp [hc])
  have hrb : ∀ c ∈ rb, isSpace c = true := fun c hc => hsp c (by simp [hc])
  unfold linesMatch EqualFold TrimSpace
  simp only [ha, hb]
  rw [trimSpaceRunes_append_right ra _ hra, trimSpaceRunes_append_left la _ hla,
    trimSpaceRunes_append_right rb _ hrb, trimSpaceRunes_append_left lb _ hlb]
  exact equalFoldRunes_of_forall₂ fold
    (forall₂_trimSpaceRunes (isSpace_eq_of_sameRune fold) hcore)

theorem getElem?_take_append {α : Type} (f g : List α) (k j : Nat) (hj : j < k)
    (hk : k ≤ f.length) : (f.take k ++ g)[j]? = f[j]? := by
  rw [List.getElem?_append_left (by simp; omega), List.getElem?_take_of_lt hj]

theorem lt_length_of_getElem? {α : Type} (f : List α) (j : Nat) (a : α)
    (h : f[j]? = some a) : j < f.length := by
  obtain ⟨hj, _⟩ := List.getElem?_eq_some_iff.mp h
  exact hj

/-! ### The claims about `compareFile` -/

/-- C1, evaluated where the code departs from it: the first file has the lines "a", "b",
the second only the line "a", so the first file has exactly one trailing line the second
lacks; `compareFile` answers `isEqual = true` (with index 2). -/
theorem compareFile_one_extra_line_in_first :
    compareFile asciiFold (.ok ["a", "b"]) (.ok ["a"]) = (2, true, none) := by
  decide

theorem sameUpToSpaceAndCase_refl (fold : Char → Char → Bool) (a : String) :
    SameUpToSpaceAndCase fold a a :=
  ⟨[], a.data, [], [], a.data, [], by simp, by simp, by simp,
    List.forall₂_same.mpr (fun _ _ => Or.inl rfl)⟩

theorem fits_of_byteLength_lt (l : String) (h : byteLength l < maxScanTokenSize) :
    fits l = true := by
  simp [fits, h]

/-- C8 as stated fails: two files of two lines each, whose first lines are the same
70000 letters "a" and whose second lines are "4" and "5". The first lines match and the
second do not, yet the code returns `(1, false)`, not `(2, false)`: the first `Scan()`
fails on the long line and line 71 then finds the buffer. -/
theorem compareFile_first_mismatch_counterexample :
    linesMatch asciiFold (longLine 'a') (longLine 'a') = true ∧
    linesMatch asciiFold "4" "5" = false ∧
    compareFile asciiFold (.ok [longLine 'a', "4"]) (.ok [longLine 'a', "5"])
      = (1, false, none) ∧
    compareFile asciiFold (.ok [longLine 'a', "4"]) (.ok [longLine 'a', "5"])
      ≠ (((2 : Nat) : Int), false, none) := by
  have h : compareFile asciiFold (.ok [longLine 'a', "4"]) (.ok [longLine 'a', "5"])
      = (1, false, none) := by
    simp only [compareFile,
      compareLoop_of_long_first asciiFold (longLine 'a') ["4"] [longLine 'a', "5"] 1
        (fits_longLine 'a' (by decide))]
  refine ⟨linesMatch_refl asciiFold _, by decide, h, ?_⟩
  rw [h]
  decide

/-- C8, amended: if both files have at least `k ≥ 1` lines, each of the lines 1..k-1 of
both files is shorter than 65536 bytes (`bufio.MaxScanTokenSize`), lines 1..k-1 match
pairwise (trimmed, ignoring case) and the k-th lines do not, then `compareFile` returns
`(k, false)` with no error; and the same result is returned whatever lines follow line
`k` in either file. -/
theorem compareFile_first_mismatch (fold : Char → Char → Bool) (f1 f2 : List String)
    (k : Nat) (a b : String) (hk : 1 ≤ k)
    (hfit1 : ∀ j x, j + 1 < k → f1[j]? = some x → byteLength x < maxScanTokenSize)
    (hfit2 : ∀ j y, j + 1 < k → f2[j]? = some y → byteLength y < maxScanTokenSize)
    (hpre : ∀ j x y, j + 1 < k → f1[j]? = some x → f2[j]? = some y →
      linesMatch fold x y = true)
    (ha : f1[k - 1]? = some a) (hb : f2[k - 1]? = some b)
    (hab : linesMatch fold a b = false) :
    compareFile fold (.ok f1) (.ok f2) = ((k : Int), false, none) ∧
    ∀ g1 g2 : List String,
      compareFile fold (.ok (f1.take k ++ g1)) (.ok (f2.take k ++ g2))
        = ((k : Int), false, none) := by
  obtain ⟨m, rfl⟩ : ∃ m, k = m + 1 := ⟨k - 1, by omega⟩
  simp only [Nat.add_sub_cancel] at ha hb
  have h1 := lt_length_of_getElem? f1 m a ha
  have h2 := lt_length_of_getElem? f2 m b hb
  have hf1 : ∀ j x, j < m → f1[j]? = some x → fits x = true :=
    fun j x hj hx => fits_of_byteLength_lt x (hfit1 j x (by omega) hx)
  have hf2 : ∀ j y, j < m → f2[j]? = some y → fits y = true :=
    fun j y hj hy => fits_of_byteLength_lt y (hfit2 j y (by omega) hy)
  have hpre2 : ∀ j x y, j < m → f1[j]? = some x → f2[j]? = some y →
      linesMatch fold x y = true :=
    fun j x y hj hx hy => hpre j x y (by omega) hx hy
  constructor
  · have h := compareLoop_first_mismatch fold m f1 f2 1 a b hf1 hf2 hpre2 ha hb hab
    simp only [compareFile, h, Prod.mk.injEq, and_true]
    push_cast
    omega
  · intro g1 g2
    have e1 : ∀ j, j < m + 1 → (f1.take (m + 1) ++ g1)[j]? = f1[j]? :=
      fun j hj => getElem?_take_append f1 g1 (m + 1) j hj (by omega)
    have e2 : ∀ j, j < m + 1 → (f2.take (m + 1) ++ g2)[j]? = f2[j]? :=
      fun j hj => getElem?_take_append f2 g2 (m + 1) j hj (by omega)
    have h := compareLoop_first_mismatch fold m (f1.take (m + 1) ++ g1)
      (f2.take (m + 1) ++ g2) 1 a b
      (fun j x hj hx => hf1 j x hj (by rw [← e1 j (by omega)]; exact hx))
      (fun j y hj hy => hf2 j y hj (by rw [← e2 j (by omega)]; exact hy))
      (fun j x y hj hx hy => hpre2 j x y hj
        (by rw [← e1 j (by omega)]; exact hx) (by rw [← e2 j (by omega)]; exact hy))
      (by rw [e1 m (by omega)]; exact ha)
      (by rw [e2 m (by omega)]; exact hb)
      hab
    simp only [compareFile, h, Prod.mk.injEq, and_true]
    push_cast
    omega

/-- C8, amended, at a concrete pair of files: the third lines differ. -/
theorem compareFile_first_mismatch_witness :
    compareFile asciiFold (.ok ["1", " Yes", "4", "x"]) (.ok ["1", "yes ", "5"])
        = (((3 : Nat) : Int), false, none) ∧
    ∀ g1 g2 : List String,
      compareFile asciiFold (.ok (["1", " Yes", "4", "x"].take 3 ++ g1))
        (.ok (["1", "yes ", "5"].take 3 ++ g2)) = (((3 : Nat) : Int), false, none) :=
  compareFile_first_mismatch asciiFold ["1", " Yes", "4", "x"] ["1", "yes ", "5"] 3 "4" "5"
    (by decide)
    (by
      intro j x hj hx
      have hj2 : j = 0 ∨ j = 1 := by omega
      rcases hj2 with rfl | rfl
      · simp only [List.getElem?_cons_zero, Option.some.injEq] at hx
        subst hx
        decide
      · simp only [List.getElem?_cons_succ, List.getElem?_cons_zero, Option.some.injEq]
          at hx
        subst hx
        decide)
    (by
      intro j y hj hy
      have hj2 : j = 0 ∨ j = 1 := by omega
      rcases hj2 with rfl | rfl
      · simp only [List.getElem?_cons_zero, Option.some.injEq] at hy
        subst hy
        decide
      · simp only [List.getElem?_cons_succ, List.getElem?_cons_zero, Option.some.injEq]
          at hy
        subst hy
        decide)
    (by
      intro j x y hj hx hy
      have hj2 : j = 0 ∨ j = 1 := by omega
      rcases hj2 with rfl | rfl
      · simp only [List.getElem?_cons_zero, Option.some.injEq] at hx hy
        subst hx hy
        decide
      · simp only [List.getElem?_cons_succ, List.getElem?_cons_zero, Option.some.injEq]
          at hx hy
        subst hx hy
        decide)
    (by decide) (by decide) (by decide)

/-- C9 as stated fails: two identical files of one line of 70000 spaces have the same
number of lines and their lines do not differ at all, yet the code returns
`isEqual = false` (with index 1). -/
theorem compareFile_ignores_space_and_case_counterexample :
    [longLine ' '].length = [longLine ' '].length ∧
    SameUpToSpaceAndCase asciiFold (longLine ' ') (longLine ' ') ∧
    compareFile asciiFold (.ok [longLine ' ']) (.ok [longLine ' ']) = (1, false, none) := by
  refine ⟨rfl, sameUpToSpaceAndCase_refl asciiFold _, ?_⟩
  simp only [compareFile,
    compareLoop_of_long_first asciiFold (longLine ' ') [] [longLine ' '] 1
      (fits_longLine ' ' (by decide))]

/-- C9, amended: two files with the same number of lines, every line of which is shorter
than 65536 bytes (`bufio.MaxScanTokenSize`), and in which each pair of corresponding
lines differs at most in leading and trailing white space and in letter case, are
reported equal: `isEqual = true`, no error. -/
theorem compareFile_ignores_space_and_case (fold : Char → Char → Bool)
    (f1 f2 : List String) (hlen : f1.length = f2.length)
    (hfit1 : ∀ l ∈ f1, byteLength l < maxScanTokenSize)
    (hfit2 : ∀ l ∈ f2, byteLength l < maxScanTokenSize)
    (hpair : ∀ (j : Nat) (a b : String), f1[j]? = some a → f2[j]? = some b →
      SameUpToSpaceAndCase fold a b) :
    (compareFile fold (.ok f1) (.ok f2)).2 = (true, none) := by
  have h : List.Forall₂
      (fun a b => fits a = true ∧ fits b = true ∧ linesMatch fold a b = true) f1 f2 :=
    forall₂_of_getElem? _ f1 f2 hlen
      (fun j a b ha hb =>
        ⟨fits_of_byteLength_lt a (hfit1 a (List.getElem?_mem ha)),
          fits_of_byteLength_lt b (hfit2 b (List.getElem?_mem hb)),
          linesMatch_of_sameUpToSpaceAndCase fold a b (hpair j a b ha hb)⟩)
  simp [compareFile, compareLoop_of_match fold f1 f2 h]

/-- C9, amended, at a concrete pair of one-line files, " Hello" followed by a tab
against "hELLO". -/
theorem compareFile_ignores_space_and_case_witness :
    (compareFile asciiFold (.ok [" Hello\t"]) (.ok ["hELLO"])).2 = (true, none) :=
  compareFile_ignores_space_and_case asciiFold [" Hello\t"] ["hELLO"] rfl
    (by decide) (by decide)
    (by
      intro j a b ha hb
      have hj : j = 0 := by
        have := lt_length_of_getElem? _ j a ha
        simpa using this
      subst hj
      simp only [List.getElem?_cons_zero, Option.some.injEq] at ha hb
      subst ha hb
      refine ⟨[' '], ['H', 'e', 'l', 'l', 'o'], ['\t'], [], ['h', 'E', 'L', 'L', 'O'], [],
        rfl, rfl, by decide, ?_⟩
      refine List.Forall₂.cons (Or.inr (Or.inl (by decide)))
        (List.Forall₂.cons (Or.inr (Or.inr (Or.inl (by decide))))
        (List.Forall₂.cons (Or.inr (Or.inr (Or.inl (by decide))))
        (List.Forall₂.cons (Or.inr (Or.inr (Or.inl (by decide))))
        (List.Forall₂.cons (Or.inr (Or.inr (Or.inl (by decide)))) List.Forall₂.nil)))))

/-- C10 as stated fails, in two ways. On the one-line file "a" compared with itself the
code returns index 2, not the number of lines 1. On the file of one line of 70000 spaces
compared with itself the code returns `isEqual = false`. -/
theorem compareFile_self_counterexample :
    compareFile asciiFold (.ok ["a"]) (.ok ["a"]) = (2, true, none) ∧
    compareFile asciiFold (.ok ["a"]) (.ok ["a"])
      ≠ ((["a"].length : Int), true, none) ∧
    compareFile asciiFold (.ok [longLine ' ']) (.ok [longLine ' ']) = (1, false, none) := by
  refine ⟨by decide, by decide, ?_⟩
  simp only [compareFile,
    compareLoop_of_long_first asciiFold (longLine ' ') [] [longLine ' '] 1
      (fits_longLine ' ' (by decide))]

/-- C10, amended: for every file `X` with `n` lines, each shorter than 65536 bytes
(`bufio.MaxScanTokenSize`), `compareFile(X, X)` returns `(n + 1, true)` with no error:
`isEqual` is true and the index is one more than the number of lines. -/
theorem compareFile_self (fold : Char → Char → Bool) (X : List String)
    (hfit : ∀ l ∈ X, byteLength l < maxScanTokenSize) :
    compareFile fold (.ok X) (.ok X) = ((X.length : Int) + 1, true, none) := by
  have h : List.Forall₂
      (fun a b => fits a = true ∧ fits b = true ∧ linesMatch fold a b = true) X X :=
    List.forall₂_same.mpr
      (fun l hl => ⟨fits_of_byteLength_lt l (hfit l hl), fits_of_byteLength_lt l (hfit l hl),
        linesMatch_refl fold l⟩)
  simp only [compareFile, compareLoop_of_match fold X X h, Prod.mk.injEq, and_true]
  omega

/-- C10, amended, at the file with the two lines "a" and "b". -/
theorem compareFile_self_witness :
    compareFile asciiFold (.ok ["a", "b"]) (.ok ["a", "b"])
      = ((["a", "b"].length : Int) + 1, true, none) :=
  compareFile_self asciiFold ["a", "b"] (by decide)

/-! ## The harness -/

/-- A goroutine that sends `nil` on `done` has run every test case it was given. -/
theorem worker_done_nil (w : World) (argv : List String) :
    ∀ (tcs : List TestCase) (i : Nat) (h : Harness),
      (worker w argv tcs i h).2 = none →
      (worker w argv tcs i h).1.ran = h.ran ++ List.range' i tcs.length ∧
      (worker w argv tcs i h).1.lastExecutedIndex =
        (if tcs = [] then h.lastExecutedIndex else (i : Int) + tcs.length - 1) := by
  intro tcs
  induction tcs with
  | nil => intro i h _; simp [worker]
  | cons tc rest ih =>
      intro i h hnil
      unfold worker at hnil ⊢
      cases hr : (w.run argv (stdinOf tc) i).err with
      | some e =>
          cases e with
          | exitError status text =>
              simp only [hr] at hnil
              split at hnil <;> simp at hnil
          | other text => simp [hr] at hnil
      | none =>
          simp only [hr] at hnil ⊢
          obtain ⟨h1, h2⟩ := ih (i + 1) _ hnil
          refine ⟨?_, ?_⟩
          · rw [h1]
            simp [List.range'_succ]
          · rw [h2]
            by_cases hrest : rest = []
            · simp [hrest]
            · simp only [hrest, if_false, List.length_cons]
              simp
              omega

/-- A harness that returns no error has returned the index of the last test case and
has run every test case. -/
theorem harness_ok (w : World) (compiler fileAddress : String) (tcs : List TestCase)
    (h : (runExecutableWithTimeout w compiler fileAddress tcs).err = none) :
    (runExecutableWithTimeout w compiler fileAddress tcs).index = (tcs.length : Int) - 1 ∧
    (runExecutableWithTimeout w compiler fileAddress tcs).h.ran = List.range tcs.length := by
  unfold runExecutableWithTimeout at h ⊢
  cases hs : w.start (commandLine compiler fileAddress) with
  | some e => simp [hs] at h
  | none =>
    cases hc : w.createOutput with
    | some e => simp [hs, hc] at h
    | none =>
      cases hd : w.deadline with
      | some k => simp [hs, hc, hd] at h
      | none =>
        simp only [hs, hc, hd] at h ⊢
        cases hw : (worker w (commandLine compiler fileAddress) tcs 0
            { lastExecutedIndex := -1, outputFile := "", ran := [] }).2 with
        | some e => simp [hw] at h
        | none =>
          obtain ⟨h1, h2⟩ := worker_done_nil w _ tcs 0 _ hw
          simp only [hw]
          refine ⟨?_, ?_⟩
          · rw [h2]
            by_cases ht : tcs = []
            · simp [ht]
            · simp [ht]
          · rw [h1]
            simp [List.range_eq_range']

/-! ## The runners -/

theorem timeExceeded_ne_correctAnswer : timeExceeded ≠ correctAnswer := by decide


theorem RunCpp_correct (w : World) (codeBody : String) (tcs : List TestCase)
    (hv : (RunCpp w codeBody tcs).verdict = correctAnswer) :
    FullRunAndEqualFiles w tcs (runExecutableWithTimeout w "" "./files/a.out" tcs)
      (RunCpp w codeBody tcs) := by
  unfold RunCpp at hv ⊢
  cases hw : w.writeFile "./files/solution.cpp" codeBody with
  | some e => simp [hw, correctAnswer] at hv
  | none =>
    cases hc : executeCppFile w "./files/solution.cpp" with
    | some e => simp [hw, hc, correctAnswer, compileError] at hv
    | none =>
      simp only [hw, hc] at hv ⊢
      cases he : (runExecutableWithTimeout w "" "./files/a.out" tcs).err with
      | some err =>
          simp only [he] at hv
          split_ifs at hv <;>
            simp [correctAnswer, timeExceeded, runtimeError, memoryExceeded, compileError] at hv
      | none =>
          obtain ⟨hi, hran⟩ := harness_ok w _ _ tcs he
          simp only [he, hi, if_true] at hv ⊢
          rcases hcmp : compareFile w.fold
            (actualFile w (runExecutableWithTimeout w "" "./files/a.out" tcs))
            (expectedLines w) with ⟨li, eq, _ | e⟩
          · simp only [hcmp] at hv ⊢
            cases eq with
            | false => simp [correctAnswer, wrongAnswer] at hv
            | true => simp [FullRunAndEqualFiles, he, hi, hran, hcmp]
          · simp [hcmp, correctAnswer] at hv

theorem RunJava_correct (w : World) (codeBody : String) (tcs : List TestCase)
    (hv : (RunJava w codeBody tcs).verdict = correctAnswer) :
    FullRunAndEqualFiles w tcs (runExecutableWithTimeout w "java" "./files/Solution.java" tcs)
      (RunJava w codeBody tcs) := by
  unfold RunJava at hv ⊢
  cases hw : w.writeFile "./files/Solution.java" codeBody with
  | some e => simp [hw, correctAnswer] at hv
  | none =>
    cases hc : compileJava w "./files/Solution.java" with
    | some e => simp [hw, hc, correctAnswer] at hv
    | none =>
      simp only [hw, hc] at hv ⊢
      cases he : (runExecutableWithTimeout w "java" "./files/Solution.java" tcs).err with
      | some err =>
          simp only [he] at hv
          split_ifs at hv <;>
            simp [correctAnswer, timeExceeded, runtimeError, memoryExceeded] at hv
      | none =>
          obtain ⟨hi, hran⟩ := harness_ok w _ _ tcs he
          simp only [he] at hv ⊢
          split_ifs at hv with hm
          · simp [correctAnswer] at hv
          · simp only [hm, if_false]
            rcases hcmp : compareFile w.fold
              (actualFile w (runExecutableWithTimeout w "java" "./files/Solution.java" tcs))
              (expectedLines w) with ⟨li, eq, _ | e⟩
            · simp only [hcmp] at hv ⊢
              cases eq with
              | false => simp [correctAnswer, wrongAnswer] at hv
              | true => simp [FullRunAndEqualFiles, he, hi, hran, hcmp]
            · simp [hcmp, correctAnswer] at hv

theorem RunPython_correct (w : World) (codeBody : String) (tcs : List TestCase)
    (hv : (RunPython w codeBody tcs).verdict = correctAnswer) :
    FullRunAndEqualFiles w tcs (runExecutableWithTimeout w "python3" "./files/solution.py" tcs)
      (RunPython w codeBody tcs) := by
  unfold RunPython at hv ⊢
  cases hw : w.writeFile "./files/solution.py" codeBody with
  | some e => simp [hw, correctAnswer] at hv
  | none =>
      simp only [hw] at hv ⊢
      cases he : (runExecutableWithTimeout w "python3" "./files/solution.py" tcs).err with
      | some err =>
          simp only [he] at hv
          split_ifs at hv <;>
            simp [correctAnswer, timeExceeded, runtimeError, memoryExceeded, compileError] at hv
      | none =>
          obtain ⟨hi, hran⟩ := harness_ok w _ _ tcs he
          simp only [he] at hv ⊢
          split_ifs at hv with hm
          · simp [correctAnswer] at hv
          · simp only [hm, if_false]
            rcases hcmp : compareFile w.fold
              (actualFile w (runExecutableWithTimeout w "python3" "./files/solution.py" tcs))
              (expectedLines w) with ⟨li, eq, _ | e⟩
            · simp only [hcmp] at hv ⊢
              cases eq with
              | false => simp [correctAnswer, wrongAnswer] at hv
              | true => simp [FullRunAndEqualFiles, he, hi, hran, hcmp]
            · simp [hcmp, correctAnswer] at hv

/-- C2: for each of `RunCpp`, `RunJava` and `RunPython`, a run that returns the verdict
CORRECT is one in which the harness returned no error and the index
`len(testCases) - 1`, having run every test case, and in which `compareFile` on the
actual-output and expected-output files returned `isEqual = true`. -/
theorem correct_only_after_full_run_and_equal_files (w : World) (codeBody : String)
    (testCases : List TestCase) :
    ((RunCpp w codeBody testCases).verdict = correctAnswer →
      FullRunAndEqualFiles w testCases
        (runExecutableWithTimeout w "" "./files/a.out" testCases)
        (RunCpp w codeBody testCases)) ∧
    ((RunJava w codeBody testCases).verdict = correctAnswer →
      FullRunAndEqualFiles w testCases
        (runExecutableWithTimeout w "java" "./files/Solution.java" testCases)
        (RunJava w codeBody testCases)) ∧
    ((RunPython w codeBody testCases).verdict = correctAnswer →
      FullRunAndEqualFiles w testCases
        (runExecutableWithTimeout w "python3" "./files/solution.py" testCases)
        (RunPython w codeBody testCases)) :=
  ⟨RunCpp_correct w codeBody testCases, RunJava_correct w codeBody testCases,
    RunPython_correct w codeBody testCases⟩

/-- C2 in a world where the program prints "5" for the one test case that expects "5":
all three runners answer CORRECT, and the run was full and the files equal. -/
theorem correct_only_after_full_run_and_equal_files_witness :
    ((RunCpp (calmWorld "5\n" "5\n") "" oneCase).verdict = correctAnswer ∧
      FullRunAndEqualFiles (calmWorld "5\n" "5\n") oneCase
        (runExecutableWithTimeout (calmWorld "5\n" "5\n") "" "./files/a.out" oneCase)
        (RunCpp (calmWorld "5\n" "5\n") "" oneCase)) ∧
    ((RunJava (calmWorld "5\n" "5\n") "" oneCase).verdict = correctAnswer ∧
      FullRunAndEqualFiles (calmWorld "5\n" "5\n") oneCase
        (runExecutableWithTimeout (calmWorld "5\n" "5\n") "java" "./files/Solution.java"
          oneCase)
        (RunJava (calmWorld "5\n" "5\n") "" oneCase)) ∧
    ((RunPython (calmWorld "5\n" "5\n") "" oneCase).verdict = correctAnswer ∧
      FullRunAndEqualFiles (calmWorld "5\n" "5\n") oneCase
        (runExecutableWithTimeout (calmWorld "5\n" "5\n") "python3" "./files/solution.py"
          oneCase)
        (RunPython (calmWorld "5\n" "5\n") "" oneCase)) :=
  ⟨⟨by decide,
      (correct_only_after_full_run_and_equal_files (calmWorld "5\n" "5\n") "" oneCase).1
        (by decide)⟩,
    ⟨by decide,
      (correct_only_after_full_run_and_equal_files (calmWorld "5\n" "5\n") "" oneCase).2.1
        (by decide)⟩,
    ⟨by decide,
      (correct_only_after_full_run_and_equal_files (calmWorld "5\n" "5\n") "" oneCase).2.2
        (by decide)⟩⟩

/-- C3, evaluated where the code departs from it: one test case expecting "5", a program
that prints "4". `RunCpp` answers WRONG with index 1, the line number of the mismatch,
which is not below the number of test cases, 1. -/
theorem RunCpp_wrong_answer_index :
    RunCpp (calmWorld "4\n" (WriteOutputToFile oneCase)) "" oneCase =
      ⟨1, "WRONG", none, some ⟨0, none, ⟨0, "4\n", [0]⟩⟩⟩ ∧
    oneCase.length = 1 := by
  decide

/-- C5, evaluated where the code departs from it: the submitted program exits with
status 1 on the only test case, so the harness returns the error
"execution error 2: exit status 1"; `RunCpp` and `RunPython` answer COMPILE_ERROR
together with a hard error (`RunJava` answers RUNTIME_ERROR, also with a hard error). -/
theorem runtime_failure_verdicts :
    runExecutableWithTimeout (crashWorld "5\n" "5\n" 0) "" "./files/a.out" oneCase =
      ⟨-1, some (.msg "execution error 2: exit status 1"), ⟨-1, "", [0]⟩⟩ ∧
    RunCpp (crashWorld "5\n" "5\n" 0) "" oneCase =
      ⟨-1, "COMPILE_ERROR",
        some (.msg "failed to run executable: execution error 2: exit status 1"),
        some ⟨-1, some (.msg "execution error 2: exit status 1"), ⟨-1, "", [0]⟩⟩⟩ ∧
    RunPython (crashWorld "5\n" "5\n" 0) "" oneCase =
      ⟨-1, "COMPILE_ERROR",
        some (.msg "failed to run executable: execution error 2: exit status 1"),
        some ⟨-1, some (.msg "execution error 2: exit status 1"), ⟨-1, "", [0]⟩⟩⟩ ∧
    RunJava (crashWorld "5\n" "5\n" 0) "" oneCase =
      ⟨-1, "RUNTIME_ERROR",
        some (.msg "failed to run Java code: execution error 2: exit status 1"),
        some ⟨-1, some (.msg "execution error 2: exit status 1"), ⟨-1, "", [0]⟩⟩⟩ := by
  decide

/-- C6, evaluated where the code departs from it: the compiler exits with status 1.
`RunJava` returns index -1 and a hard error without calling the harness, but its verdict
is the empty string, not COMPILE_ERROR; `RunCpp` returns COMPILE_ERROR with index -1. -/
theorem compile_failure_verdicts :
    RunJava brokenSourceWorld "" oneCase =
      ⟨-1, "", some (.msg "failed to compile Java code: javac exited with status: 1"),
        none⟩ ∧
    RunCpp brokenSourceWorld "" oneCase =
      ⟨-1, "COMPILE_ERROR",
        some (.msg ("failed to execute C++ file: failed to compile C++ file: " ++
          "exit status 1\nerror: expected semicolon")), none⟩ := by
  decide

/-- C7: for each of `RunCpp`, `RunJava` and `RunPython`, when the source was written,
the compile step (if any) succeeded and the harness returns `context.DeadlineExceeded`
with some index, the runner returns that index with the verdict TIME_EXCEEDED and no
hard error; the verdict is not CORRECT. -/
theorem deadline_gives_time_exceeded (w : World) (codeBody : String)
    (testCases : List TestCase) :
    (w.writeFile "./files/solution.cpp" codeBody = none →
      executeCppFile w "./files/solution.cpp" = none →
      (runExecutableWithTimeout w "" "./files/a.out" testCases).err
        = some .deadlineExceeded →
      RunCpp w codeBody testCases =
        ⟨(runExecutableWithTimeout w "" "./files/a.out" testCases).index, timeExceeded, none,
          some (runExecutableWithTimeout w "" "./files/a.out" testCases)⟩ ∧
      (RunCpp w codeBody testCases).verdict ≠ correctAnswer) ∧
    (w.writeFile "./files/Solution.java" codeBody = none →
      compileJava w "./files/Solution.java" = none →
      (runExecutableWithTimeout w "java" "./files/Solution.java" testCases).err
        = some .deadlineExceeded →
      RunJava w codeBody testCases =
        ⟨(runExecutableWithTimeout w "java" "./files/Solution.java" testCases).index,
          timeExceeded, none,
          some (runExecutableWithTimeout w "java" "./files/Solution.java" testCases)⟩ ∧
      (RunJava w codeBody testCases).verdict ≠ correctAnswer) ∧
    (w.writeFile "./files/solution.py" codeBody = none →
      (runExecutableWithTimeout w "python3" "./files/solution.py" testCases).err
        = some .deadlineExceeded →
      RunPython w codeBody testCases =
        ⟨(runExecutableWithTimeout w "python3" "./files/solution.py" testCases).index,
          timeExceeded, none,
          some (runExecutableWithTimeout w "python3" "./files/solution.py" testCases)⟩ ∧
      (RunPython w codeBody testCases).verdict ≠ correctAnswer) := by
  refine ⟨?_, ?_, ?_⟩
  · intro hw hc he
    have h : RunCpp w codeBody testCases =
        ⟨(runExecutableWithTimeout w "" "./files/a.out" testCases).index, timeExceeded, none,
          some (runExecutableWithTimeout w "" "./files/a.out" testCases)⟩ := by
      simp [RunCpp, hw, hc, he]
    exact ⟨h, by rw [h]; exact timeExceeded_ne_correctAnswer⟩
  · intro hw hc he
    have h : RunJava w codeBody testCases =
        ⟨(runExecutableWithTimeout w "java" "./files/Solution.java" testCases).index,
          timeExceeded, none,
          some (runExecutableWithTimeout w "java" "./files/Solution.java" testCases)⟩ := by
      simp [RunJava, hw, hc, he]
    exact ⟨h, by rw [h]; exact timeExceeded_ne_correctAnswer⟩
  · intro hw he
    have h : RunPython w codeBody testCases =
        ⟨(runExecutableWithTimeout w "python3" "./files/solution.py" testCases).index,
          timeExceeded, none,
          some (runExecutableWithTimeout w "python3" "./files/solution.py" testCases)⟩ := by
      simp [RunPython, hw, he]
    exact ⟨h, by rw [h]; exact timeExceeded_ne_correctAnswer⟩

/-- C7 in a world where the overall deadline expires during the first test case: all
three runners return index -1 with TIME_EXCEEDED. -/
theorem deadline_gives_time_exceeded_witness :
    (RunCpp sleepyWorld "" oneCase =
        ⟨(runExecutableWithTimeout sleepyWorld "" "./files/a.out" oneCase).index,
          timeExceeded, none,
          some (runExecutableWithTimeout sleepyWorld "" "./files/a.out" oneCase)⟩ ∧
      (RunCpp sleepyWorld "" oneCase).verdict ≠ correctAnswer) ∧
    (RunJava sleepyWorld "" oneCase =
        ⟨(runExecutableWithTimeout sleepyWorld "java" "./files/Solution.java" oneCase).index,
          timeExceeded, none,
          some (runExecutableWithTimeout sleepyWorld "java" "./files/Solution.java"
            oneCase)⟩ ∧
      (RunJava sleepyWorld "" oneCase).verdict ≠ correctAnswer) ∧
    (RunPython sleepyWorld "" oneCase =
        ⟨(runExecutableWithTimeout sleepyWorld "python3" "./files/solution.py" oneCase).index,
          timeExceeded, none,
          some (runExecutableWithTimeout sleepyWorld "python3" "./files/solution.py"
            oneCase)⟩ ∧
      (RunPython sleepyWorld "" oneCase).verdict ≠ correctAnswer) :=
  ⟨(deadline_gives_time_exceeded sleepyWorld "" oneCase).1 rfl (by decide) (by decide),
    (deadline_gives_time_exceeded sleepyWorld "" oneCase).2.1 rfl (by decide) (by decide),
    (deadline_gives_time_exceeded sleepyWorld "" oneCase).2.2 rfl (by decide)⟩

end OJ
